import Mathlib

/-!
Verification of the publish orchestrator of the joplin-plugin-pages-publisher
repository.  The definitions below are a shallow embedding of
`src/domain/service/PublishService.ts` and of the utility module containing
`isUnset` and `selfish`.  Asynchronous methods are embedded as pure functions
from an explicit orchestrator state plus an environment record describing the
outcomes of the external collaborators (site generator, local git controller,
remote GitHub client); calls to the collaborators are recorded in an emitted
call list, and a thrown JavaScript error is an `Option` result.
-/

namespace PagesPublisher

/-- A JavaScript value as far as the credential-validation code inspects it:
`undefined`, `null`, or a string. -/
inductive JsValue where
  | undef
  | nullv
  | str (s : String)
deriving DecidableEq

/-- Embedding of lodash `isNil`: true exactly on `null` and `undefined`. -/
def isNil : JsValue → Bool
  | .undef => true
  | .nullv => true
  | .str _ => false

/-- Embedding of `isUnset` from the utility module:
`(value) => isNil(value) || value === ''`. -/
def isUnset (v : JsValue) : Bool :=
  isNil v || v == JsValue.str ""

/-- Embedding of lodash `isEmpty` restricted to the values that can appear in
a credential field: `isEmpty(undefined) = isEmpty(null) = true`, and a string
is empty iff it has length zero. -/
def isEmptyJs : JsValue → Bool
  | .undef => true
  | .nullv => true
  | .str s => s.isEmpty

/-- Embedding of the `Github` credential record.  A field holding `none`
models a key that is absent from the object; `some v` models a present key
with value `v` (which may itself be `undefined` or `null`).  The same shape
serves for `Partial<Github>` values.  The `repositoryName` field is the
optional repository-name override; `userName`, `email` and `token` are the
fields the validity check inspects. -/
structure Github where
  userName : Option JsValue
  email : Option JsValue
  token : Option JsValue
  repositoryName : Option JsValue
deriving DecidableEq

/-- Embedding of `pick(this.githubInfo.value, ['userName', 'email', 'token'])`
followed by taking the picked values: lodash `pick` keeps exactly the keys
present on the object (also when their value is `undefined` or `null`), and
`pick` of a `null` object is the empty object. -/
def pickRequired : Option Github → List JsValue
  | none => []
  | some g =>
    (match g.userName with | some v => [v] | none => []) ++
    (match g.email with | some v => [v] | none => []) ++
    (match g.token with | some v => [v] | none => [])

/-- Embedding of the computed `isGithubInfoValid`:
`Object.keys(keyInfos).length === requiredKeys.length && !some(keyInfos, isEmpty)`. -/
def isGithubInfoValid (info : Option Github) : Bool :=
  (pickRequired info).length == 3 && !((pickRequired info).any isEmptyJs)

/-- Embedding of the `PublishResults` enum from the publishing model
(constructors as used throughout `PublishService.ts`). -/
inductive PublishResults where
  | Terminated
  | Fail
  | Success
deriving DecidableEq

/-- Embedding of the `LocalRepoStatus` enum of `PublishService.ts`. -/
inductive LocalRepoStatus where
  | Ready
  | Fail
  | Initializing
  | MissingRepository
deriving DecidableEq

/-- Embedding of the `PUBLISH_RESULT_MESSAGE` record of `PublishService.ts`. -/
def PUBLISH_RESULT_MESSAGE : PublishResults → String
  | .Terminated => "Publishing terminated."
  | .Fail => "This is an unexpected error, you can retry, and report it as a Github issue"
  | .Success => ""

/-- Embedding of `GeneratingProgress`: a result field that is unset,
`"success"` or `"fail"`, and a message string. -/
structure GeneratingProgress where
  result : Option String
  message : String
deriving DecidableEq

/-- Modelled from the spec: `initialGeneratingProgress` lives in the publishing
model module, which is not part of the sources; the spec describes it as the
initial empty value of `GeneratingProgress` (result unset, empty message). -/
def initialGeneratingProgress : GeneratingProgress :=
  { result := none, message := "" }

/-- Embedding of `PublishingProgress`: phase and message strings plus a result
that is unset or one of the `PublishResults`. -/
structure PublishingProgress where
  phase : String
  message : String
  result : Option PublishResults
deriving DecidableEq

/-- Modelled from the spec: `initialPublishProgress` lives in the publishing
model module, which is not part of the sources; the spec describes it as the
initial empty value of `PublishingProgress`. -/
def initialPublishProgress : PublishingProgress :=
  { phase := "", message := "", result := none }

/-- A JavaScript error as thrown or caught by `PublishService`: either a
`PublishError` carrying a classified `type` and a message (the shape the
`instanceof PublishError` branch of `publish` inspects), or a plain `Error`
with a message.  The catch handler discriminates exactly on this shape. -/
inductive JsError where
  | publishError (type : PublishResults) (message : String)
  | error (message : String)
deriving DecidableEq

/-- The external calls `PublishService` can make to its collaborators. -/
inductive ExtCall where
  | gitTerminate
  | gitPush (files : List String) (forceFullInit : Bool)
  | githubCreateRepository
  | githubInit (info : Github)
  | saveInfo (info : Github)
  | logError (message : String)
deriving DecidableEq

/-- The mutable state of a `PublishService` instance: its private fields and
reactive refs. -/
structure ServiceState where
  files : List String
  localRepoStatus : LocalRepoStatus
  repositoryName : String
  githubInfo : Option Github
  isGenerating : Bool
  isPublishing : Bool
  outputDir : String
  generatingProgress : GeneratingProgress
  publishingProgress : PublishingProgress
deriving DecidableEq

/-- The state of a fresh `PublishService` as set by its field initializers
(before the asynchronous `init` resolves): no files, local repo
`Initializing`, no credential record, both activity flags false, empty
strings, and both progress records at their initial values. -/
def initState : ServiceState :=
  { files := []
    localRepoStatus := .Initializing
    repositoryName := ""
    githubInfo := none
    isGenerating := false
    isPublishing := false
    outputDir := ""
    generatingProgress := initialGeneratingProgress
    publishingProgress := initialPublishProgress }

/-- Embedding of the computed `isRepositoryMissing`:
`localRepoStatus === LocalRepoStatus.MissingRepository`. -/
def isRepositoryMissing (s : ServiceState) : Bool :=
  s.localRepoStatus == LocalRepoStatus.MissingRepository

/-- Embedding of `stopPublishing`: set `isPublishing` to false and call
`git.terminate()`. -/
def stopPublishing (s : ServiceState) : ServiceState × List ExtCall :=
  ({ s with isPublishing := false }, [ExtCall.gitTerminate])

/-- Embedding of the local `needToInit` computation of `publish`:
`publishingProgress.result === PublishResults.Fail || needToCreateRepo ||
localRepoStatus === LocalRepoStatus.Fail`. -/
def needToInitOf (s : ServiceState) (needToCreateRepo : Bool) : Bool :=
  s.publishingProgress.result == some PublishResults.Fail || needToCreateRepo ||
    s.localRepoStatus == LocalRepoStatus.Fail

/-- The state of the orchestrator after the guarded prefix of `publish`: the
progress reset performed when `needToInit` holds (via
`refreshPublishingProgress()`, i.e. `Object.assign` with the full initial
record), followed by setting `isPublishing` to true.  This is the state in
force when the `try` block starts. -/
def publishPrelude (s : ServiceState) (needToCreateRepo : Bool) : ServiceState :=
  let s1 := if needToInitOf s needToCreateRepo then
    { s with publishingProgress := initialPublishProgress } else s
  { s1 with isPublishing := true }

/-- The behaviour of the external collaborators during one `publish` call:
the outcome of `github.createRepository()`, the outcome of
`git.push(...)`, and whether the user invokes `stopPublishing` while the
3-second grace delay is pending. -/
structure PublishEnv where
  createRepoOutcome : Except JsError Unit
  pushOutcome : Except JsError Unit
  stopDuringGrace : Bool

/-- The observable result of one `publish` call: the final orchestrator
state, the external calls made (in order), and the error the call rejects
with, if any. -/
structure PublishRun where
  state : ServiceState
  calls : List ExtCall
  thrown : Option JsError
deriving DecidableEq

/-- Embedding of the `try` block of `publish`: optionally create the remote
repository, await the 3-second grace delay (during which `stopPublishing`
may run), then unconditionally call `git.push(this.files, needToInit)` and on
success set `publishingProgress.result = Success`.  Returns the state and
calls together with the error the block throws, if any. -/
def publishTryBody (s : ServiceState) (needToCreateRepo needToInit : Bool)
    (env : PublishEnv) : ServiceState × List ExtCall × Option JsError :=
  let doCreate := needToCreateRepo && isRepositoryMissing s
  let crCalls : List ExtCall :=
    if doCreate then [ExtCall.githubCreateRepository] else []
  let crOutcome : Except JsError Unit :=
    if doCreate then env.createRepoOutcome else Except.ok ()
  match crOutcome with
  | .error e => (s, crCalls, some e)
  | .ok _ =>
    let s2 := if env.stopDuringGrace then (stopPublishing s).1 else s
    let graceCalls := if env.stopDuringGrace then (stopPublishing s).2 else []
    match env.pushOutcome with
    | .error e =>
      (s2, crCalls ++ graceCalls ++ [ExtCall.gitPush s2.files needToInit], some e)
    | .ok _ =>
      ({ s2 with publishingProgress :=
          { s2.publishingProgress with result := some PublishResults.Success } },
        crCalls ++ graceCalls ++ [ExtCall.gitPush s2.files needToInit], none)

/-- Embedding of the `catch`/`finally` tail of `publish`: a `PublishError` is
recorded into the progress record (result from its `type`, message from
`` `${error.message || ''} ${PUBLISH_RESULT_MESSAGE[error.type]}`.trim() ``)
and absorbed; any other error is re-raised; `finally`, `isPublishing` is
cleared on every path. -/
def publishSettle (s3 : ServiceState) (calls : List ExtCall)
    (err : Option JsError) : PublishRun :=
  match err with
  | some (.publishError t m) =>
    let message := (m ++ " " ++ PUBLISH_RESULT_MESSAGE t).trim
    { state := { s3 with
        publishingProgress := { s3.publishingProgress with
          result := some t, message := message }
        isPublishing := false }
      calls := calls
      thrown := none }
  | some e =>
    { state := { s3 with isPublishing := false }, calls := calls, thrown := some e }
  | none =>
    { state := { s3 with isPublishing := false }, calls := calls, thrown := none }

/-- Embedding of `publish(needToCreateRepo = false)`: the re-entrancy guard,
the credential guard (`throw new Error('invalid github info')`), the
`needToInit` computation with its progress reset, the `try` block, and the
`catch`/`finally` tail. -/
def publish (s : ServiceState) (needToCreateRepo : Bool) (env : PublishEnv) :
    PublishRun :=
  if s.isPublishing then { state := s, calls := [], thrown := none }
  else if !(isGithubInfoValid s.githubInfo) then
    { state := s, calls := [], thrown := some (JsError.error "invalid github info") }
  else
    let needToInit := needToInitOf s needToCreateRepo
    let s2 := publishPrelude s needToCreateRepo
    let r := publishTryBody s2 needToCreateRepo needToInit env
    publishSettle r.1 r.2.1 r.2.2

/-- The observable result of one `generateSite` call: the final state and the
error the call rejects with, if any. -/
structure GenRun where
  state : ServiceState
  thrown : Option JsError
deriving DecidableEq

/-- Embedding of `generateSite`.  `forbidGenerate` is the collaborator veto
`appService.getLatestWarning(FORBIDDEN.GENERATE)`; `genOutcome` is the
outcome of `generator.generateSite()` (a file list, or a failure whose
`.message` is the given string).  The guard throws `Error('generating!')`;
otherwise the progress record is reset, the generator outcome is folded into
`files` and `generatingProgress`, the failure is absorbed, and `finally`
clears `isGenerating`. -/
def generateSite (s : ServiceState) (forbidGenerate : Bool)
    (genOutcome : Except String (List String)) : GenRun :=
  if s.isGenerating || forbidGenerate then
    { state := s, thrown := some (JsError.error "generating!") }
  else
    let s1 := { s with isGenerating := true,
                       generatingProgress := initialGeneratingProgress }
    match genOutcome with
    | .ok fs =>
      { state := { s1 with
          files := fs
          generatingProgress :=
            { result := some "success"
              message := toString fs.length ++ " files in totals" }
          isGenerating := false }
        thrown := none }
    | .error msg =>
      { state := { s1 with
          generatingProgress := { s1.generatingProgress with
            result := some "fail", message := msg }
          isGenerating := false }
        thrown := none }

/-- Embedding of `Object.assign` on one credential field: a key present on
the source (even with value `undefined`) overwrites the target, an absent key
leaves the target untouched. -/
def assignField : Option JsValue → Option JsValue → Option JsValue
  | some v, _ => some v
  | none, old => old

/-- Embedding of `Object.assign(this.githubInfo.value, githubInfo_)` on whole
records: field-wise overlay of the source onto the target. -/
def assignGithub (target source : Github) : Github :=
  { userName := assignField source.userName target.userName
    email := assignField source.email target.email
    token := assignField source.token target.token
    repositoryName := assignField source.repositoryName target.repositoryName }

/-- Embedding of lodash `omit(record, ['token'])`: the record without its
`token` key. -/
def omitToken (g : Github) : Github :=
  { g with token := none }

/-- Embedding of `initGithubClient`: a no-op unless the current credential
record exists and is valid; when it runs it calls `github.init` with the
current record and refreshes `repositoryName` from
`github.getRepositoryName()` (whose return value is the `repoName`
parameter). -/
def initGithubClient (s : ServiceState) (repoName : String) :
    ServiceState × List ExtCall :=
  if !(isGithubInfoValid s.githubInfo) || s.githubInfo.isNone then (s, [])
  else
    match s.githubInfo with
    | some g => ({ s with repositoryName := repoName }, [ExtCall.githubInit g])
    | none => (s, [])

/-- Embedding of `saveGithubInfo(githubInfo)`.  When a credential record
exists: drop the `token` key from the argument, `Object.assign` the rest onto
the current record, persist the merged record without its token via
`pluginDataRepository.saveGithubInfo`, and re-run `initGithubClient`.  When no
record exists: `console.error` and return. -/
def saveGithubInfo (s : ServiceState) (info : Github) (repoName : String) :
    ServiceState × List ExtCall :=
  match s.githubInfo with
  | some g =>
    let info2 := omitToken info
    let merged := assignGithub g info2
    let s1 := { s with githubInfo := some merged }
    let r := initGithubClient s1 repoName
    (r.1, ExtCall.saveInfo (omitToken merged) :: r.2)
  | none =>
    (s, [ExtCall.logError "this.githubInfo.value is null"])

/-- A JavaScript runtime value as the `selfish` proxy inspects it: plain data,
a function (identified by an allocation id), or a bound function created by
`Function.prototype.bind` (its own allocation id, the id of the underlying
function, and the id of the receiver it is bound to). -/
inductive RtVal where
  | data (v : JsValue)
  | func (fid : Nat)
  | boundFunc (bid : Nat) (fid : Nat) (self : Nat)
deriving DecidableEq

/-- Embedding of the check `typeof value === 'function'`: true for functions
and bound functions. -/
def isFunctionVal : RtVal → Bool
  | .data _ => false
  | .func _ => true
  | .boundFunc _ _ _ => true

/-- The target object handed to `selfish`: its identity and its own
properties. -/
structure TargetObj where
  oid : Nat
  fields : List (String × RtVal)

/-- Embedding of `Reflect.get(target, key)`: the first matching property, or
`undefined` when the key is absent. -/
def reflectGet (t : TargetObj) (key : String) : RtVal :=
  match t.fields.find? (fun p => p.1 == key) with
  | some p => p.2
  | none => RtVal.data JsValue.undef

/-- Embedding of `value.bind(target)`: binding a plain function fixes the
receiver to the target; re-binding an already-bound function allocates a new
bound function whose receiver stays the original one. -/
def jsBind (v : RtVal) (recv fresh : Nat) : RtVal :=
  match v with
  | .func fid => .boundFunc fresh fid recv
  | .boundFunc _ fid self => .boundFunc fresh fid self
  | d => d

/-- The private state of one `selfish` proxy: the `WeakMap` cache from
function values to their bound versions, plus an allocation counter for fresh
bound-function identities. -/
structure SelfishState where
  cache : List (RtVal × RtVal)
  nextId : Nat

/-- The cache of a fresh `selfish` proxy. -/
def initialSelfishState : SelfishState :=
  { cache := [], nextId := 0 }

/-- Lookup in the `WeakMap` cache, keyed by the function value itself. -/
def lookupCache : List (RtVal × RtVal) → RtVal → Option RtVal
  | [], _ => none
  | (k, v) :: rest, key => if key = k then some v else lookupCache rest key

/-- Embedding of the `get` trap of the proxy returned by `selfish(target)`:
read the raw value; return it unchanged unless it is a function; otherwise
return the cached bound version, creating and caching it on first access. -/
def selfishGet (t : TargetObj) (st : SelfishState) (key : String) :
    RtVal × SelfishState :=
  if isFunctionVal (reflectGet t key) then
    match lookupCache st.cache (reflectGet t key) with
    | some b => (b, st)
    | none =>
      (jsBind (reflectGet t key) t.oid st.nextId,
        { cache := (reflectGet t key, jsBind (reflectGet t key) t.oid st.nextId)
            :: st.cache
          nextId := st.nextId + 1 })
  else
    (reflectGet t key, st)

/-- Calling a runtime value with a given receiver and arguments, relative to
an abstract semantics `callSpec fid receiver args` of the underlying
functions: a plain function uses the supplied receiver, a bound function
ignores it in favour of its bound receiver, and data is not callable. -/
def callVal (callSpec : Nat → Nat → List JsValue → JsValue) :
    RtVal → Nat → List JsValue → Option JsValue
  | .func fid, recv, args => some (callSpec fid recv args)
  | .boundFunc _ fid self, _, args => some (callSpec fid self args)
  | .data _, _, _ => none

/-- The cache entries a `selfish` proxy over `t` can ever contain: each maps a
function value to a bound function over the same underlying function, with
the receiver being `t` itself for plain function keys, and the originally
bound receiver for already-bound keys. -/
def CacheWF (t : TargetObj) (st : SelfishState) : Prop :=
  ∀ k b, (k, b) ∈ st.cache →
    (∃ fid, k = RtVal.func fid ∧ ∃ bid, b = RtVal.boundFunc bid fid t.oid) ∨
    (∃ bid0 fid self, k = RtVal.boundFunc bid0 fid self ∧
      ∃ bid, b = RtVal.boundFunc bid fid self)

/-- A fully set credential record, used for concrete checks. -/
def sampleGithub : Github :=
  { userName := some (.str "u"), email := some (.str "e"),
    token := some (.str "t"), repositoryName := none }

/-- An idle orchestrator state holding valid credentials over a ready local
repository. -/
def sampleState : ServiceState :=
  { initState with githubInfo := some sampleGithub, localRepoStatus := .Ready }

/-- Collaborator behaviour where everything succeeds and the user does not
cancel. -/
def quietEnv : PublishEnv :=
  { createRepoOutcome := .ok (), pushOutcome := .ok (), stopDuringGrace := false }

/-- Collaborator behaviour where the user calls `stopPublishing` during the
grace window and the local controller honours the terminate signal by
rejecting the push with `PublishError{type: Terminated}`. -/
def stopEnv : PublishEnv :=
  { createRepoOutcome := .ok ()
    pushOutcome := .error (.publishError .Terminated "")
    stopDuringGrace := true }

/-- A credential update that changes the user name and tries to smuggle in a
new token. -/
def sampleChange : Github :=
  { userName := some (.str "newUser"), email := none,
    token := some (.str "evil"), repositoryName := none }

/-- A concrete `selfish` target: a method under key `"m"` and a plain data
property under key `"d"`. -/
def sampleTarget : TargetObj :=
  { oid := 0, fields := [("m", RtVal.func 7), ("d", RtVal.data (.str "v"))] }

/-! Helper lemmas shared across the claim theorems. -/

theorem isEmptyJs_eq_isUnset (v : JsValue) : isEmptyJs v = isUnset v := by
  cases v with
  | undef => rfl
  | nullv => rfl
  | str s =>
    simp only [isEmptyJs, isUnset, isNil, Bool.false_or]
    rw [Bool.eq_iff_iff]
    simp [String.isEmpty_iff]

theorem publishSettle_calls (s : ServiceState) (c : List ExtCall)
    (e : Option JsError) : (publishSettle s c e).calls = c := by
  rcases e with _ | e
  · rfl
  · rcases e with ⟨t, m⟩ | m <;> rfl

theorem publish_guarded_eq (s : ServiceState) (b : Bool) (env : PublishEnv)
    (h1 : s.isPublishing = false) (h2 : isGithubInfoValid s.githubInfo = true) :
    publish s b env =
      publishSettle
        (publishTryBody (publishPrelude s b) b (needToInitOf s b) env).1
        (publishTryBody (publishPrelude s b) b (needToInitOf s b) env).2.1
        (publishTryBody (publishPrelude s b) b (needToInitOf s b) env).2.2 := by
  simp [publish, h1, h2]

theorem tryBody_push_mem (s : ServiceState) (b n : Bool) (env : PublishEnv)
    (fs : List String) (fl : Bool)
    (h : ExtCall.gitPush fs fl ∈ (publishTryBody s b n env).2.1) :
    fl = n ∧ fs = s.files := by
  unfold publishTryBody at h
  by_cases hd : (b && isRepositoryMissing s) = true <;>
    rcases hc : env.createRepoOutcome with e | u <;>
    by_cases hs : env.stopDuringGrace = true <;>
    rcases hp : env.pushOutcome with e2 | u2 <;>
    simp_all [stopPublishing]

theorem publishPrelude_files (s : ServiceState) (b : Bool) :
    (publishPrelude s b).files = s.files := by
  unfold publishPrelude
  by_cases h : needToInitOf s b = true <;> simp [h]

/-! Claim theorems. -/

/-- Claim C2: a `publish` call made while `isPublishing` is true returns
immediately without error, leaves the whole orchestrator state unchanged, and
makes no external call. -/
theorem publish_reentrant_noop (s : ServiceState) (b : Bool) (env : PublishEnv)
    (h : s.isPublishing = true) :
    publish s b env = { state := s, calls := [], thrown := none } := by
  simp [publish, h]

/-- Witness for C2: a concrete in-flight state is returned untouched. -/
theorem publish_reentrant_noop_witness :
    publish { sampleState with isPublishing := true } false quietEnv =
      { state := { sampleState with isPublishing := true }, calls := [],
        thrown := none } :=
  publish_reentrant_noop { sampleState with isPublishing := true } false quietEnv rfl

/-- Claim C4: the derived credential validity holds iff each of `userName`,
`email` and `token` is a present key whose value is neither `null`,
`undefined` nor the empty string (i.e. not `isUnset`); a `null` record or one
missing any of the three keys is invalid, and `publish` on a state carrying an
invalid record throws `Error('invalid github info')` without mutating state or
calling a collaborator. -/
theorem credential_validity_iff (info : Option Github) :
    (isGithubInfoValid info = true ↔ ∃ g, info = some g ∧
      (∃ u, g.userName = some u ∧ isUnset u = false) ∧
      (∃ e, g.email = some e ∧ isUnset e = false) ∧
      (∃ t, g.token = some t ∧ isUnset t = false)) ∧
    (∀ s b env, s.githubInfo = info → isGithubInfoValid info = false →
      s.isPublishing = false →
      publish s b env = { state := s, calls := [],
                          thrown := some (JsError.error "invalid github info") }) := by
  constructor
  · cases info with
    | none => simp [isGithubInfoValid, pickRequired]
    | some g =>
      rcases g with ⟨u, e, t, r⟩
      cases u <;> cases e <;> cases t <;>
        simp [isGithubInfoValid, pickRequired, isEmptyJs_eq_isUnset]
  · intro s b env h1 h2 h3
    rw [publish, if_neg (by simp [h3]), if_pos (by simp [h1, h2])]

/-- Witness for C4: a record with an empty token is invalid and publish
throws on it. -/
theorem credential_validity_iff_witness :
    publish { sampleState with
        githubInfo := some { sampleGithub with token := some (.str "") } }
      false quietEnv =
      { state := { sampleState with
          githubInfo := some { sampleGithub with token := some (.str "") } }
        calls := []
        thrown := some (JsError.error "invalid github info") } :=
  (credential_validity_iff
    (some { sampleGithub with token := some (.str "") })).2
    _ false quietEnv rfl (by decide) rfl

/-- Claim C7: a `generateSite` run whose generator returns `N` files stores
that list into `files`, sets the generating result to `"success"`, and sets
the message to `"N files in totals"`. -/
theorem generateSite_success_effects (s : ServiceState) (forb : Bool)
    (fs : List String) (h1 : s.isGenerating = false) (h2 : forb = false) :
    (generateSite s forb (.ok fs)).state.files = fs ∧
    (generateSite s forb (.ok fs)).state.generatingProgress.result = some "success" ∧
    (generateSite s forb (.ok fs)).state.generatingProgress.message =
      toString fs.length ++ " files in totals" := by
  subst h2
  simp [generateSite, h1]

/-- Witness for C7: five files produce the message `"5 files in totals"`. -/
theorem generateSite_success_effects_witness :
    (generateSite sampleState false
        (.ok ["a", "b", "c", "d", "e"])).state.generatingProgress.message =
      "5 files in totals" :=
  ((generateSite_success_effects sampleState false
    ["a", "b", "c", "d", "e"] rfl rfl).2.2).trans rfl

/-- Claim C8: when the generator call inside a started `generateSite` run
fails, the error is absorbed (never rethrown), the generating result is set to
`"fail"` with the failure text as message, and `isGenerating` is cleared on
every exit path regardless of outcome. -/
theorem generateSite_failure_absorbed (s : ServiceState) (forb : Bool)
    (h1 : s.isGenerating = false) (h2 : forb = false) :
    (∀ msg, (generateSite s forb (.error msg)).thrown = none ∧
      (generateSite s forb (.error msg)).state.generatingProgress.result = some "fail" ∧
      (generateSite s forb (.error msg)).state.generatingProgress.message = msg) ∧
    (∀ out, (generateSite s forb out).state.isGenerating = false) := by
  subst h2
  constructor
  · intro msg
    simp [generateSite, h1]
  · intro out
    cases out <;> simp [generateSite, h1]

/-- Witness for C8: a concrete failing generator run is absorbed. -/
theorem generateSite_failure_absorbed_witness :
    (generateSite sampleState false (.error "boom")).thrown = none ∧
    (generateSite sampleState false
      (.error "boom")).state.generatingProgress.message = "boom" :=
  ⟨((generateSite_failure_absorbed sampleState false rfl rfl).1 "boom").1,
   ((generateSite_failure_absorbed sampleState false rfl rfl).1 "boom").2.2⟩

theorem publishPrelude_localRepoStatus (s : ServiceState) (b : Bool) :
    (publishPrelude s b).localRepoStatus = s.localRepoStatus := by
  unfold publishPrelude
  by_cases h : needToInitOf s b = true <;> simp [h]

theorem tryBody_push_error (s : ServiceState) (b n : Bool) (env : PublishEnv)
    (e : JsError)
    (hcr : (b && isRepositoryMissing s) = false ∨
      env.createRepoOutcome = Except.ok ())
    (hp : env.pushOutcome = .error e) :
    (publishTryBody s b n env).2.2 = some e ∧
    (publishTryBody s b n env).1.publishingProgress = s.publishingProgress := by
  unfold publishTryBody
  rcases hcr with hcr | hcr
  · cases hstop : env.stopDuringGrace <;>
      simp [hcr, hp, hstop, stopPublishing]
  · by_cases hd : (b && isRepositoryMissing s) = true <;>
      cases hstop : env.stopDuringGrace <;>
      simp [hd, hcr, hp, hstop, stopPublishing]

/-- Claim C3: past the re-entrancy and credential guards, the `needToInit`
flag equals the disjunction of a previous `Fail` publish result, the caller
requesting repository creation, and a failed local-repo status; when it is
true the publishing progress is reset to its initial value before the try
block starts (and left untouched otherwise), and every push issued by the
call carries exactly this flag as its `forceFullInit` argument. -/
theorem publish_reinit_flag (s : ServiceState) (b : Bool) (env : PublishEnv)
    (h1 : s.isPublishing = false) (h2 : isGithubInfoValid s.githubInfo = true) :
    (needToInitOf s b = true ↔
      (s.publishingProgress.result = some PublishResults.Fail ∨ b = true ∨
        s.localRepoStatus = LocalRepoStatus.Fail)) ∧
    (needToInitOf s b = true →
      (publishPrelude s b).publishingProgress = initialPublishProgress) ∧
    (needToInitOf s b = false →
      (publishPrelude s b).publishingProgress = s.publishingProgress) ∧
    (∀ fs fl, ExtCall.gitPush fs fl ∈ (publish s b env).calls →
      fl = needToInitOf s b) := by
  refine ⟨?_, ?_, ?_, ?_⟩
  · simp [needToInitOf, or_assoc]
  · intro h
    simp [publishPrelude, h]
  · intro h
    simp [publishPrelude, h]
  · intro fs fl hmem
    rw [publish_guarded_eq s b env h1 h2, publishSettle_calls] at hmem
    exact (tryBody_push_mem _ _ _ _ _ _ hmem).1

/-- Witness for C3: after a local-repo failure, `publish(false)` resets the
progress record and pushes with `forceFullInit = true`. -/
theorem publish_reinit_flag_witness :
    needToInitOf { sampleState with localRepoStatus := .Fail } false = true ∧
    (publishPrelude { sampleState with localRepoStatus := .Fail }
      false).publishingProgress = initialPublishProgress ∧
    ExtCall.gitPush [] true ∈
      (publish { sampleState with localRepoStatus := .Fail } false
        quietEnv).calls :=
  ⟨rfl,
   (publish_reinit_flag { sampleState with localRepoStatus := .Fail } false
      quietEnv rfl rfl).2.1 rfl,
   by decide⟩

/-- Claim C5: when the push step fails, a classified `PublishError` is
absorbed and recorded — result becomes the error type and message becomes the
error message, a space, and the canned explanation for that type, trimmed —
while any unclassified error is re-raised as-is with the publishing progress
left exactly as it was when the push started. -/
theorem publish_push_failure_classified (s : ServiceState) (b : Bool)
    (env : PublishEnv)
    (h1 : s.isPublishing = false) (h2 : isGithubInfoValid s.githubInfo = true)
    (h3 : (b && isRepositoryMissing s) = false ∨
      env.createRepoOutcome = Except.ok ()) :
    (∀ t m, env.pushOutcome = .error (JsError.publishError t m) →
      (publish s b env).thrown = none ∧
      (publish s b env).state.publishingProgress.result = some t ∧
      (publish s b env).state.publishingProgress.message =
        (m ++ " " ++ PUBLISH_RESULT_MESSAGE t).trim) ∧
    (∀ m, env.pushOutcome = .error (JsError.error m) →
      (publish s b env).thrown = some (JsError.error m) ∧
      (publish s b env).state.publishingProgress =
        (publishPrelude s b).publishingProgress) := by
  have hcr : (b && isRepositoryMissing (publishPrelude s b)) = false ∨
      env.createRepoOutcome = Except.ok () := by
    rcases h3 with h3 | h3
    · left
      rwa [isRepositoryMissing, publishPrelude_localRepoStatus]
    · right
      exact h3
  constructor
  · intro t m hp
    have h := tryBody_push_error (publishPrelude s b) b (needToInitOf s b) env
      _ hcr hp
    rw [publish_guarded_eq s b env h1 h2]
    unfold publishSettle
    rw [h.1]
    simp [h.2]
  · intro m hp
    have h := tryBody_push_error (publishPrelude s b) b (needToInitOf s b) env
      _ hcr hp
    rw [publish_guarded_eq s b env h1 h2]
    unfold publishSettle
    rw [h.1]
    simp [h.2]

/-- Witness for C5: a push rejecting with `PublishError{type: Fail,
message: "network down"}` yields the documented progress record. -/
theorem publish_push_failure_classified_witness :
    ((publish sampleState false
        { quietEnv with
          pushOutcome :=
            .error (.publishError .Fail "network down") }).state.publishingProgress.message =
      ("network down" ++ " " ++ PUBLISH_RESULT_MESSAGE PublishResults.Fail).trim) ∧
    (publish sampleState false
        { quietEnv with
          pushOutcome := .error (.error "oops") }).thrown =
      some (JsError.error "oops") :=
  ⟨((publish_push_failure_classified sampleState false
        { quietEnv with pushOutcome := .error (.publishError .Fail "network down") }
        rfl rfl (Or.inl rfl)).1 .Fail "network down" rfl).2.2,
   ((publish_push_failure_classified sampleState false
        { quietEnv with pushOutcome := .error (.error "oops") }
        rfl rfl (Or.inl rfl)).2 "oops" rfl).1⟩

/-- Claim C6: `files` always reflects the most recent successful generate — a
fresh orchestrator holds the empty sequence, a successful generate overwrites
`files` with the returned list, a failed generate leaves `files` unchanged,
and every push issued by a publish call carries exactly the current `files`
sequence. -/
theorem files_reflect_last_generate :
    initState.files = [] ∧
    (∀ s forb fs, s.isGenerating = false → forb = false →
      (generateSite s forb (.ok fs)).state.files = fs) ∧
    (∀ s forb msg, (generateSite s forb (.error msg)).state.files = s.files) ∧
    (∀ s b env fs fl, ExtCall.gitPush fs fl ∈ (publish s b env).calls →
      fs = s.files) := by
  refine ⟨rfl, ?_, ?_, ?_⟩
  · intro s forb fs h1 h2
    subst h2
    simp [generateSite, h1]
  · intro s forb msg
    unfold generateSite
    by_cases h : (s.isGenerating || forb) = true <;> simp [h]
  · intro s b env fs fl hmem
    by_cases h1 : s.isPublishing = true
    · simp [publish, h1] at hmem
    · by_cases h2 : isGithubInfoValid s.githubInfo = true
      · rw [publish_guarded_eq s b env (by simpa using h1) h2,
          publishSettle_calls] at hmem
        rw [(tryBody_push_mem _ _ _ _ _ _ hmem).2]
        exact publishPrelude_files s b
      · rw [publish, if_neg (by simpa using h1),
          if_pos (by simpa using h2)] at hmem
        simp at hmem

/-- Witness for C6: a successful generate of two files feeds exactly those
two files to the next push. -/
theorem files_reflect_last_generate_witness :
    ((generateSite sampleState false (.ok ["x", "y"])).state.files =
      ["x", "y"]) ∧
    ((generateSite sampleState false (.error "e")).state.files = []) :=
  ⟨files_reflect_last_generate.2.1 sampleState false ["x", "y"] rfl rfl,
   (files_reflect_last_generate.2.2.1 sampleState false "e").trans rfl⟩

theorem publishSettle_isPublishing (s : ServiceState) (c : List ExtCall)
    (e : Option JsError) : (publishSettle s c e).state.isPublishing = false := by
  rcases e with _ | e
  · rfl
  · rcases e with ⟨t, m⟩ | m <;> rfl

theorem tryBody_calls_stop (s : ServiceState) (b n : Bool) (env : PublishEnv)
    (hcr : (b && isRepositoryMissing s) = false ∨
      env.createRepoOutcome = Except.ok ())
    (hstop : env.stopDuringGrace = true) :
    ExtCall.gitTerminate ∈ (publishTryBody s b n env).2.1 ∧
    ExtCall.gitPush s.files n ∈ (publishTryBody s b n env).2.1 := by
  unfold publishTryBody
  rcases hcr with hcr | hcr
  · rcases hp : env.pushOutcome with e | u <;>
      simp [hcr, hstop, hp, stopPublishing]
  · by_cases hd : (b && isRepositoryMissing s) = true <;>
      rcases hp : env.pushOutcome with e | u <;>
      simp [hd, hcr, hstop, hp, stopPublishing]

theorem tryBody_push_ok (s : ServiceState) (b n : Bool) (env : PublishEnv)
    (hcr : (b && isRepositoryMissing s) = false ∨
      env.createRepoOutcome = Except.ok ())
    (hp : env.pushOutcome = Except.ok ()) :
    (publishTryBody s b n env).2.2 = none ∧
    (publishTryBody s b n env).1.publishingProgress.result =
      some PublishResults.Success := by
  unfold publishTryBody
  rcases hcr with hcr | hcr
  · cases hstop : env.stopDuringGrace <;>
      simp [hcr, hp, hstop, stopPublishing]
  · by_cases hd : (b && isRepositoryMissing s) = true <;>
      cases hstop : env.stopDuringGrace <;>
      simp [hd, hcr, hp, hstop, stopPublishing]

/-- Counterexample to claim C1: when `stopPublishing` runs during the grace
window of a publish attempt over a ready repository with valid credentials,
the attempt still invokes `git.push` afterwards — the orchestrator performs no
termination check between the grace delay and the push, so the push call is
not prevented. -/
theorem stop_during_grace_push_still_invoked :
    stopEnv.stopDuringGrace = true ∧
    (publish sampleState false stopEnv).calls =
      [ExtCall.gitTerminate, ExtCall.gitPush [] false] ∧
    (publish sampleState false stopEnv).state.publishingProgress.result =
      some PublishResults.Terminated := by
  refine ⟨rfl, ?_, ?_⟩ <;> rfl

/-- Claim C1 (amended): calling `stopPublishing` during the grace window
clears `isPublishing` and sends a terminate request to the local controller,
but it does not prevent the push: the attempt still invokes `git.push` with
the current files and the `needToInit` flag.  If the local controller then
rejects that push with `PublishError{type: Terminated}`,
`PublishingProgress.result` ends up `Terminated`; and unless the progress
record already held a stale `Terminated` result when the attempt began, a
`Terminated` rejection of the push is the only way the result ends up
`Terminated`. -/
theorem stop_during_grace_amended (s : ServiceState) (b : Bool)
    (env : PublishEnv)
    (h1 : s.isPublishing = false) (h2 : isGithubInfoValid s.githubInfo = true)
    (h3 : env.stopDuringGrace = true)
    (h4 : (b && isRepositoryMissing s) = false ∨
      env.createRepoOutcome = Except.ok ()) :
    ExtCall.gitTerminate ∈ (publish s b env).calls ∧
    ExtCall.gitPush s.files (needToInitOf s b) ∈ (publish s b env).calls ∧
    (∀ m, env.pushOutcome = .error (JsError.publishError .Terminated m) →
      (publish s b env).state.publishingProgress.result =
        some PublishResults.Terminated) ∧
    (s.publishingProgress.result ≠ some PublishResults.Terminated →
      ((publish s b env).state.publishingProgress.result =
          some PublishResults.Terminated ↔
        ∃ m, env.pushOutcome =
          .error (JsError.publishError .Terminated m))) ∧
    (publish s b env).state.isPublishing = false := by
  have hcr : (b && isRepositoryMissing (publishPrelude s b)) = false ∨
      env.createRepoOutcome = Except.ok () := by
    rcases h4 with h4 | h4
    · left
      rwa [isRepositoryMissing, publishPrelude_localRepoStatus]
    · right
      exact h4
  have hmem := tryBody_calls_stop (publishPrelude s b) b (needToInitOf s b)
    env hcr h3
  rw [publishPrelude_files] at hmem
  have hforward : ∀ m,
      env.pushOutcome = .error (JsError.publishError .Terminated m) →
      (publish s b env).state.publishingProgress.result =
        some PublishResults.Terminated := by
    intro m hp
    have h := tryBody_push_error (publishPrelude s b) b (needToInitOf s b)
      env _ hcr hp
    rw [publish_guarded_eq s b env h1 h2]
    unfold publishSettle
    rw [h.1]
  refine ⟨?_, ?_, hforward, ?_, ?_⟩
  · rw [publish_guarded_eq s b env h1 h2, publishSettle_calls]
    exact hmem.1
  · rw [publish_guarded_eq s b env h1 h2, publishSettle_calls]
    exact hmem.2
  · intro h5
    have hpre : (publishPrelude s b).publishingProgress.result ≠
        some PublishResults.Terminated := by
      unfold publishPrelude
      by_cases hn : needToInitOf s b = true
      · simp [hn, initialPublishProgress]
      · simp only [hn, if_false, Bool.false_eq_true]
        exact h5
    constructor
    · intro hres
      rcases hp : env.pushOutcome with e | u
      · rcases e with ⟨t, m⟩ | m
        · have h := tryBody_push_error (publishPrelude s b) b
            (needToInitOf s b) env _ hcr hp
          rw [publish_guarded_eq s b env h1 h2] at hres
          unfold publishSettle at hres
          rw [h.1] at hres
          simp at hres
          exact ⟨m, by rw [hres]⟩
        · have h := tryBody_push_error (publishPrelude s b) b
            (needToInitOf s b) env _ hcr hp
          rw [publish_guarded_eq s b env h1 h2] at hres
          unfold publishSettle at hres
          rw [h.1] at hres
          simp at hres
          rw [h.2] at hres
          exact absurd hres hpre
      · cases u
        have h := tryBody_push_ok (publishPrelude s b) b (needToInitOf s b)
          env hcr hp
        rw [publish_guarded_eq s b env h1 h2] at hres
        unfold publishSettle at hres
        rw [h.1] at hres
        simp at hres
        rw [h.2] at hres
        simp at hres
    · intro hex
      rcases hex with ⟨m, hp⟩
      exact hforward m hp
  · rw [publish_guarded_eq s b env h1 h2]
    exact publishSettle_isPublishing _ _ _

/-- Witness for the amended C1: the concrete stopped run contains both the
terminate and the push call, ends with result `Terminated`, and (starting
without a stale `Terminated` result) that result indeed came from a
`Terminated` rejection of the push. -/
theorem stop_during_grace_amended_witness :
    ExtCall.gitTerminate ∈ (publish sampleState false stopEnv).calls ∧
    ExtCall.gitPush [] false ∈ (publish sampleState false stopEnv).calls ∧
    (publish sampleState false stopEnv).state.publishingProgress.result =
      some PublishResults.Terminated ∧
    (∃ m, stopEnv.pushOutcome =
      .error (JsError.publishError PublishResults.Terminated m)) :=
  ⟨(stop_during_grace_amended sampleState false stopEnv rfl rfl rfl
      (Or.inl rfl)).1,
   (stop_during_grace_amended sampleState false stopEnv rfl rfl rfl
      (Or.inl rfl)).2.1,
   (stop_during_grace_amended sampleState false stopEnv rfl rfl rfl
      (Or.inl rfl)).2.2.1 "" rfl,
   ((stop_during_grace_amended sampleState false stopEnv rfl rfl rfl
      (Or.inl rfl)).2.2.2.1 (by decide)).mp
     ((stop_during_grace_amended sampleState false stopEnv rfl rfl rfl
      (Or.inl rfl)).2.2.1 "" rfl)⟩

theorem initGithubClient_frame (s : ServiceState) (rn : String) :
    (initGithubClient s rn).1.githubInfo = s.githubInfo ∧
    (∀ c, c ∈ (initGithubClient s rn).2 → ∃ g, c = ExtCall.githubInit g) := by
  unfold initGithubClient
  rcases hg : s.githubInfo with _ | g
  · simp [hg]
  · by_cases hv : isGithubInfoValid (some g) = true <;> simp [hg, hv]

/-- Claim C9: `saveGithubInfo` never changes the stored token: when a
credential record exists, the argument minus its token key is overlaid onto
the current record, the merged record minus its token is persisted, and no
persisted payload carries a token; when no record exists, an error is logged
and the call leaves the state and the store untouched. -/
theorem saveGithubInfo_token_preserved (s : ServiceState) (p : Github)
    (rn : String) :
    (∀ g, s.githubInfo = some g →
      ∃ merged,
        (saveGithubInfo s p rn).1.githubInfo = some merged ∧
        merged.token = g.token ∧
        merged.userName = assignField p.userName g.userName ∧
        merged.email = assignField p.email g.email ∧
        merged.repositoryName = assignField p.repositoryName g.repositoryName ∧
        ExtCall.saveInfo (omitToken merged) ∈ (saveGithubInfo s p rn).2 ∧
        (∀ q, ExtCall.saveInfo q ∈ (saveGithubInfo s p rn).2 →
          q.token = none)) ∧
    (s.githubInfo = none →
      saveGithubInfo s p rn =
        (s, [ExtCall.logError "this.githubInfo.value is null"])) := by
  constructor
  · intro g hg
    refine ⟨assignGithub g (omitToken p), ?_, rfl, rfl, rfl, rfl, ?_, ?_⟩
    · unfold saveGithubInfo
      rw [hg]
      exact (initGithubClient_frame _ rn).1
    · unfold saveGithubInfo
      rw [hg]
      exact List.mem_cons_self _ _
    · intro q hq
      unfold saveGithubInfo at hq
      rw [hg] at hq
      rcases List.mem_cons.1 hq with hq | hq
      · cases hq
        rfl
      · rcases (initGithubClient_frame _ rn).2 _ hq with ⟨g2, hg2⟩
        cases hg2
  · intro hg
    unfold saveGithubInfo
    rw [hg]

/-- Witness for C9: merging a change that carries a token leaves the stored
token intact, and the call on a state without credentials only logs. -/
theorem saveGithubInfo_token_preserved_witness :
    (∃ merged,
      (saveGithubInfo sampleState sampleChange "r").1.githubInfo =
        some merged ∧
      merged.token = sampleGithub.token ∧
      merged.userName = assignField sampleChange.userName sampleGithub.userName ∧
      merged.email = assignField sampleChange.email sampleGithub.email ∧
      merged.repositoryName =
        assignField sampleChange.repositoryName sampleGithub.repositoryName ∧
      ExtCall.saveInfo (omitToken merged) ∈
        (saveGithubInfo sampleState sampleChange "r").2 ∧
      (∀ q, ExtCall.saveInfo q ∈ (saveGithubInfo sampleState sampleChange "r").2 →
        q.token = none)) ∧
    saveGithubInfo { sampleState with githubInfo := none } sampleChange "r" =
      ({ sampleState with githubInfo := none },
        [ExtCall.logError "this.githubInfo.value is null"]) :=
  ⟨(saveGithubInfo_token_preserved sampleState sampleChange "r").1
      sampleGithub rfl,
   (saveGithubInfo_token_preserved { sampleState with githubInfo := none }
      sampleChange "r").2 rfl⟩

theorem lookupCache_mem (c : List (RtVal × RtVal)) (k b : RtVal)
    (h : lookupCache c k = some b) : (k, b) ∈ c := by
  induction c with
  | nil => cases h
  | cons hd tl ih =>
    rcases hd with ⟨k1, v1⟩
    simp only [lookupCache] at h
    by_cases hk : k = k1
    · subst hk
      rw [if_pos rfl] at h
      cases h
      exact List.mem_cons_self _ _
    · rw [if_neg hk] at h
      exact List.mem_cons_of_mem _ (ih h)

theorem selfishGet_data (t : TargetObj) (st : SelfishState) (k : String)
    (hf : isFunctionVal (reflectGet t k) = false) :
    selfishGet t st k = (reflectGet t k, st) := by
  unfold selfishGet
  rw [hf]
  simp

theorem selfishGet_miss (t : TargetObj) (st : SelfishState) (k : String)
    (hf : isFunctionVal (reflectGet t k) = true)
    (hl : lookupCache st.cache (reflectGet t k) = none) :
    selfishGet t st k =
      (jsBind (reflectGet t k) t.oid st.nextId,
        { cache := (reflectGet t k, jsBind (reflectGet t k) t.oid st.nextId)
            :: st.cache
          nextId := st.nextId + 1 }) := by
  unfold selfishGet
  rw [if_pos hf, hl]

theorem selfishGet_hit (t : TargetObj) (st : SelfishState) (k : String)
    (b : RtVal)
    (hf : isFunctionVal (reflectGet t k) = true)
    (hl : lookupCache st.cache (reflectGet t k) = some b) :
    selfishGet t st k = (b, st) := by
  unfold selfishGet
  rw [if_pos hf, hl]

/-- Claim C10: the `get` trap of `selfish(target)` returns a non-function
property value unchanged (without touching the cache); a function-valued
property is returned bound to the target, so calling it with any receiver
behaves as calling the underlying function with the target as receiver; and a
second access of the same function-valued key returns the identical cached
bound function.  The cache invariant is preserved by every access. -/
theorem selfish_get_behaviour (t : TargetObj) (st : SelfishState) (k : String)
    (hwf : CacheWF t st) :
    CacheWF t (selfishGet t st k).2 ∧
    (isFunctionVal (reflectGet t k) = false →
      (selfishGet t st k).1 = reflectGet t k ∧ (selfishGet t st k).2 = st) ∧
    (∀ fid, reflectGet t k = RtVal.func fid →
      (∃ bid, (selfishGet t st k).1 = RtVal.boundFunc bid fid t.oid) ∧
      (∀ callSpec recv args,
        callVal callSpec (selfishGet t st k).1 recv args =
          callVal callSpec (reflectGet t k) t.oid args) ∧
      (selfishGet t (selfishGet t st k).2 k).1 = (selfishGet t st k).1) := by
  refine ⟨?_, ?_, ?_⟩
  · by_cases hf : isFunctionVal (reflectGet t k) = true
    · rcases hl : lookupCache st.cache (reflectGet t k) with _ | b
      · rw [selfishGet_miss t st k hf hl]
        intro k2 b2 hmem
        rcases List.mem_cons.1 hmem with hmem | hmem
        · cases hmem
          cases hv : reflectGet t k with
          | data v =>
            rw [hv] at hf
            simp [isFunctionVal] at hf
          | func fid =>
            left
            exact ⟨fid, rfl, st.nextId, rfl⟩
          | boundFunc bid0 fid2 self =>
            right
            exact ⟨bid0, fid2, self, rfl, st.nextId, rfl⟩
        · exact hwf k2 b2 hmem
      · rw [selfishGet_hit t st k b hf hl]
        exact hwf
    · rw [Bool.not_eq_true] at hf
      rw [selfishGet_data t st k hf]
      exact hwf
  · intro hf
    rw [selfishGet_data t st k hf]
    exact ⟨rfl, rfl⟩
  · intro fid hv
    have hf : isFunctionVal (reflectGet t k) = true := by
      rw [hv]
      rfl
    rcases hl : lookupCache st.cache (reflectGet t k) with _ | b
    · rw [selfishGet_miss t st k hf hl]
      refine ⟨⟨st.nextId, by rw [hv]; rfl⟩, ?_, ?_⟩
      · intro callSpec recv args
        rw [hv]
        rfl
      · have hl2 : lookupCache
            ((reflectGet t k, jsBind (reflectGet t k) t.oid st.nextId)
              :: st.cache) (reflectGet t k) =
            some (jsBind (reflectGet t k) t.oid st.nextId) := by
          simp [lookupCache]
        exact congrArg Prod.fst (selfishGet_hit t _ k _ hf hl2)
    · have hmem := lookupCache_mem st.cache (reflectGet t k) b hl
      have hb : ∃ bid, b = RtVal.boundFunc bid fid t.oid := by
        rcases hwf _ _ hmem with ⟨fid2, hk2, bid, hb⟩ | ⟨bid0, fid2, self, hk2, _⟩
        · rw [hv] at hk2
          cases hk2
          exact ⟨bid, hb⟩
        · rw [hv] at hk2
          cases hk2
      rcases hb with ⟨bid, hb⟩
      rw [selfishGet_hit t st k b hf hl]
      refine ⟨⟨bid, hb⟩, ?_, ?_⟩
      · intro callSpec recv args
        rw [hb, hv]
        rfl
      · exact congrArg Prod.fst (selfishGet_hit t st k b hf hl)

/-- Witness for C10: on a concrete object, the data property comes back
unchanged, the method comes back as a bound function, and a second access
returns the same bound function. -/
theorem selfish_get_behaviour_witness :
    ((selfishGet sampleTarget initialSelfishState "d").1 =
      RtVal.data (.str "v")) ∧
    (∃ bid, (selfishGet sampleTarget initialSelfishState "m").1 =
      RtVal.boundFunc bid 7 0) ∧
    ((selfishGet sampleTarget
        (selfishGet sampleTarget initialSelfishState "m").2 "m").1 =
      (selfishGet sampleTarget initialSelfishState "m").1) := by
  have hwf : CacheWF sampleTarget initialSelfishState := by
    intro k b h
    cases h
  refine ⟨?_, ?_, ?_⟩
  · exact (((selfish_get_behaviour sampleTarget initialSelfishState "d"
      hwf).2.1) rfl).1.trans rfl
  · exact ((selfish_get_behaviour sampleTarget initialSelfishState "m"
      hwf).2.2 7 rfl).1
  · exact ((selfish_get_behaviour sampleTarget initialSelfishState "m"
      hwf).2.2 7 rfl).2.2

end PagesPublisher
